import Mathlib

/-!
Verification of the core validation engine of the Data-Validation-Tool
(`DataQualityValidators.py`, class `DataQualityValidator`).

The shallow embedding below translates the validator's data model and its
four check operations plus the summary reporter into Lean.  A pandas
`DataFrame` is modelled column-major: each column carries its label, its
dtype label (the string `str(series.dtype)` would produce) and its list of
cells; a cell is either a missing value (`NaN`/`None`, modelled as
`Value.null`) or a concrete numeric / textual value.  `len(df)` is the
`nRows` field.  The mutable `validation_results` dict of the validator
instance is modelled as an association list `Store` with Python-dict
overwrite semantics (replace in place, append when the key is new), and
every check is a function `DataFrame → Store → params → Except Err (Store × result)`
whose `Err` cases are exactly the places where the Python code raises
(pandas `KeyError` on an absent column label).  `datetime.now()` in
`get_validation_summary` is nondeterministic wall-clock input and is
omitted from the summary record; no claim concerns it.
-/

namespace DQV

/-- A cell of the table: a numeric value, a textual value, or a missing
value (`NaN` / `None`).  pandas treats two missing cells as equal inside
`DataFrame.duplicated`, which the derived `DecidableEq` mirrors. -/
inductive Value where
  | num (q : ℚ)
  | str (s : String)
  | null
deriving DecidableEq, Repr

/-- `True` exactly on cells that `pandas.isnull` reports as missing. -/
def Value.isNull : Value → Bool
  | .null => true
  | _ => false

/-- The numeric content of a cell, when it has one. -/
def Value.toNum : Value → Option ℚ
  | .num q => some q
  | _ => none

/-- One column of the data frame: its label, its dtype label
(`str(series.dtype)`), and its cells in row order. -/
structure Column where
  name : String
  dtype : String
  cells : List Value
deriving DecidableEq, Repr

/-- The data frame: its columns in order, and `len(df)` as `nRows`. -/
structure DataFrame where
  cols : List Column
  nRows : ℕ
deriving DecidableEq, Repr

/-- Well-formedness: every column holds exactly `len(df)` cells. -/
def DataFrame.WF (df : DataFrame) : Bool :=
  df.cols.all (fun c => c.cells.length == df.nRows)

/-- Label-based column lookup, as in `df[name]` / `name in df.columns`;
pandas resolves a label to its first matching column. -/
def DataFrame.column (df : DataFrame) (name : String) : Option Column :=
  df.cols.find? (fun c => c.name == name)

/-- `name in df.columns`. -/
def DataFrame.hasColumn (df : DataFrame) (name : String) : Bool :=
  (df.column name).isSome

/-- `pd.api.types.is_numeric_dtype`, on the dtype labels a loaded frame
can carry (integer, float and bool dtypes are numeric in pandas). -/
def isNumericDtype (s : String) : Bool :=
  s == "int64" || s == "int32" || s == "float64" || s == "float32" || s == "bool"

/-- The errors the validator's code can actually raise: a pandas
`KeyError` carrying the offending column labels. -/
inductive Err where
  | keyError (cols : List String)
deriving DecidableEq, Repr

/-- The per-check payload stored under `details`. -/
inductive Details where
  | missing (m : List (String × ℚ))
  | dup (n : ℕ)
  | outliers (m : List (String × List ℕ))
  | schema (cols : List String)
deriving DecidableEq, Repr

/-- One entry of `validation_results`: `{'status': …, 'details': …}`. -/
structure CheckResult where
  status : Bool
  details : Details
deriving DecidableEq, Repr

/-- The `validation_results` dict, as an association list in insertion
order. -/
abbrev Store := List (String × CheckResult)

/-- Python-dict assignment `d[k] = v`: replace the first binding of `k`
in place, append at the end when `k` is new. -/
def Store.set : Store → String → CheckResult → Store
  | [], k, v => [(k, v)]
  | (k', v') :: rest, k, v =>
      if k' == k then (k, v) :: rest else (k', v') :: Store.set rest k v

/-- Python-dict lookup `d.get(k)`. -/
def Store.get (s : Store) (k : String) : Option CheckResult :=
  (s.find? (fun p => p.1 == k)).map Prod.snd

/-- The store an imperative caller holds after a call: the updated store
on success, the untouched one when the call raised. -/
def afterRun {β : Type} : Except Err (Store × β) → Store → Store
  | .ok (s', _), _ => s'
  | .error _, s => s

/-! ## Missing-value check (`check_missing_values`, lines 13–29) -/

/-- `df[c].isnull().sum()`. -/
def nullCount (c : Column) : ℕ :=
  c.cells.countP (fun v => v.isNull)

/-- `df.isnull().sum() / len(df)` for one column.  When `len(df) = 0`
pandas produces `NaN` (`0/0`), modelled as `none`; a `NaN` fraction
compares false against every threshold, exactly like `none` below. -/
def missingPct (df : DataFrame) (c : Column) : Option ℚ :=
  if df.nRows = 0 then none
  else some ((nullCount c : ℚ) / (df.nRows : ℚ))

/-- `missing_pct[missing_pct > threshold]`, as label → fraction pairs in
column order. -/
def flaggedMissing (df : DataFrame) (t : ℚ) : List (String × ℚ) :=
  df.cols.filterMap (fun c =>
    match missingPct df c with
    | some q => if t < q then some (c.name, q) else none
    | none => none)

/-- `check_missing_values`: flag the columns whose missing fraction
strictly exceeds the threshold, store status and details, return the
flagged mapping.  The Python body cannot raise. -/
def check_missing_values (df : DataFrame) (s : Store) (t : ℚ) :
    Except Err (Store × List (String × ℚ)) :=
  let res := flaggedMissing df t
  .ok (s.set "missing_values" ⟨res.isEmpty, .missing res⟩, res)

/-- The missing fraction as the specification words it:
`null_count / total_rows`, defined to be `0` when `total_rows = 0`. -/
def specMissingFraction (df : DataFrame) (c : Column) : ℚ :=
  if df.nRows = 0 then 0 else (nullCount c : ℚ) / (df.nRows : ℚ)

/-! ## Duplicate check (`check_duplicates`, lines 31–46) -/

/-- Row `i` of the frame, over all columns. -/
def DataFrame.rowAt (df : DataFrame) (i : ℕ) : List Value :=
  df.cols.map (fun c => c.cells.getD i Value.null)

/-- Row `i` restricted to the labels of `subset`, each label resolved as
pandas resolves it. -/
def DataFrame.subRowAt (df : DataFrame) (sub : List String) (i : ℕ) : List Value :=
  sub.map (fun nm => ((df.column nm).map (fun c => c.cells.getD i Value.null)).getD Value.null)

/-- The comparison keys `df.duplicated(subset=…)` works over: one key per
row, over all columns when `subset` is `None`. -/
def dupKeys (df : DataFrame) : Option (List String) → List (List Value)
  | none => (List.range df.nRows).map df.rowAt
  | some sub => (List.range df.nRows).map (df.subRowAt sub)

/-- `df.duplicated(keep='first')` at position `i`: some strictly earlier
position holds an identical key. -/
def hasEarlierEq {α : Type} [DecidableEq α] (keys : List α) (i : ℕ) : Bool :=
  (List.range i).any (fun j => decide (keys.get? j = keys.get? i))

/-- The boolean mask `df.duplicated(…)`. -/
def dupFlags {α : Type} [DecidableEq α] (keys : List α) : List Bool :=
  (List.range keys.length).map (hasEarlierEq keys)

/-- `len(df[df.duplicated(…)])`. -/
def dupCount {α : Type} [DecidableEq α] (keys : List α) : ℕ :=
  (dupFlags keys).count true

/-- `check_duplicates`: pandas first validates the `subset` labels and
raises `KeyError` with the missing ones before computing anything; on
success the count is stored and returned. -/
def check_duplicates (df : DataFrame) (s : Store) (subset : Option (List String)) :
    Except Err (Store × ℕ) :=
  match subset with
  | some sub =>
      let miss := sub.filter (fun nm => !df.hasColumn nm)
      if miss.isEmpty then
        let n := dupCount (dupKeys df (some sub))
        .ok (s.set "duplicates" ⟨decide (n = 0), .dup n⟩, n)
      else .error (.keyError miss)
  | none =>
      let n := dupCount (dupKeys df none)
      .ok (s.set "duplicates" ⟨decide (n = 0), .dup n⟩, n)

/-! ## Outlier check (`check_outliers`, lines 48–74) -/

/-- The non-missing numeric values of a column, in row order — the values
`series.mean()` and `series.std()` aggregate over (pandas skips `NaN`). -/
def Column.numsOf (c : Column) : List ℚ :=
  c.cells.filterMap Value.toNum

/-- `series.mean()` over the non-missing values. -/
def sampleMean (xs : List ℚ) : ℚ :=
  xs.sum / (xs.length : ℚ)

/-- The square of `series.std()`: the sample variance (`ddof = 1`),
`Σ (x − mean)² / (n − 1)`. -/
def sampleVar (xs : List ℚ) : ℚ :=
  (xs.map (fun x => (x - sampleMean xs) ^ 2)).sum / ((xs.length : ℚ) - 1)

/-- Decides `d < k * √v` for rationals (intended for `v ≥ 0`), so the
code's float comparisons against `mean ± n_std * std` stay executable
even though `std = √variance` is irrational.  `ltSqrtMul_iff` below
proves this boolean equal to the real-number comparison. -/
def ltSqrtMul (d k v : ℚ) : Bool :=
  if 0 < k then decide (d < 0 ∨ (0 ≤ d ∧ d ^ 2 < k ^ 2 * v))
  else if k = 0 then decide (d < 0)
  else decide (d < 0 ∧ k ^ 2 * v < d ^ 2)

/-- The row mask `(df[col] < mean - n_std*std) | (df[col] > mean + n_std*std)`
at row `i`: a missing cell compares false on both sides (`NaN`
semantics); a value `x` satisfies `x < mean − k·std` iff
`x − mean < (−k)·√var`, and `x > mean + k·std` iff
`mean − x < (−k)·√var`. -/
def isOutlierAt (c : Column) (k : ℚ) (i : ℕ) : Bool :=
  match (c.cells.getD i Value.null).toNum with
  | none => false
  | some x =>
      ltSqrtMul (x - sampleMean c.numsOf) (-k) (sampleVar c.numsOf)
        || ltSqrtMul (sampleMean c.numsOf - x) (-k) (sampleVar c.numsOf)

/-- `df[mask].index.tolist()` for one requested numeric column: the
ascending row positions passing the mask.  With fewer than two
non-missing values pandas' `std()` (`ddof = 1`) is `NaN`, every
comparison against it is false, and the list is empty. -/
def outlierIdx (df : DataFrame) (c : Column) (k : ℚ) : List ℕ :=
  if c.numsOf.length < 2 then []
  else (List.range df.nRows).filter (fun i => isOutlierAt c k i)

/-- The loop body of `check_outliers`: walk the requested labels, raise
`KeyError` at the first absent one (`self.df[col]`), skip non-numeric
dtypes silently, and record label → outlier indices otherwise. -/
def outlierEntries (df : DataFrame) (cols : List String) (k : ℚ) :
    Except Err (List (String × List ℕ)) :=
  match cols with
  | [] => .ok []
  | name :: rest =>
      match df.column name with
      | none => .error (.keyError [name])
      | some c =>
          if isNumericDtype c.dtype then
            (outlierEntries df rest k).map (fun l => (name, outlierIdx df c k) :: l)
          else outlierEntries df rest k

/-- `check_outliers`: run the loop; only after it completes store
`status = all lists empty` and the per-column details, and return them.
A raise inside the loop therefore leaves the store untouched. -/
def check_outliers (df : DataFrame) (s : Store) (cols : List String) (k : ℚ) :
    Except Err (Store × List (String × List ℕ)) :=
  match outlierEntries df cols k with
  | .error e => .error e
  | .ok res =>
      .ok (s.set "outliers" ⟨res.all (fun p => p.2.isEmpty), .outliers res⟩, res)

/-! ## Schema check (`validate_schema`, lines 76–99) -/

/-- One entry of the expected schema is a mismatch when the column is
absent, or present with `str(df[col].dtype) != expected_type`. -/
def isMismatch (df : DataFrame) (p : String × String) : Bool :=
  match df.column p.1 with
  | some c => c.dtype != p.2
  | none => true

/-- The `mismatched_cols` list, in the order the expected schema gives
its entries. -/
def validateSchemaList (df : DataFrame) (expected : List (String × String)) :
    List String :=
  expected.filterMap (fun p => if isMismatch df p then some p.1 else none)

/-- `validate_schema`: collect mismatched entries, store status and
details, return the list.  The Python body cannot raise. -/
def validate_schema (df : DataFrame) (s : Store) (expected : List (String × String)) :
    Except Err (Store × List String) :=
  let mm := validateSchemaList df expected
  .ok (s.set "schema" ⟨mm.isEmpty, .schema mm⟩, mm)

/-! ## Summary (`get_validation_summary`, lines 101–109) -/

/-- The summary record; `timestamp` (wall clock) is omitted. -/
structure ValidationSummary where
  total_rows : ℕ
  total_columns : ℕ
  checks : Store
  overall_status : Bool
deriving DecidableEq, Repr

/-- `get_validation_summary`: snapshot the store and fold
`all(check['status'] for check in validation_results.values())`. -/
def get_validation_summary (df : DataFrame) (s : Store) : ValidationSummary :=
  { total_rows := df.nRows
    total_columns := df.cols.length
    checks := s
    overall_status := s.all (fun p => p.2.status) }

/-! ## Concrete frames used to instantiate the theorems -/

/-- The spec's duplicate example: one column `A = [1, 1, 2, 2, 3]`. -/
def dfA : DataFrame :=
  ⟨[⟨"A", "int64", [.num 1, .num 1, .num 2, .num 2, .num 3]⟩], 5⟩

/-- The single column of `dfA`. -/
def colA : Column := ⟨"A", "int64", [.num 1, .num 1, .num 2, .num 2, .num 3]⟩

/-- A numeric column with one value far from the rest. -/
def colB : Column := ⟨"B", "int64", [.num 0, .num 0, .num 0, .num 0, .num 100]⟩

/-- A one-column frame around `colB`. -/
def dfB : DataFrame := ⟨[colB], 5⟩

/-- A frame with a textual column and a single-valued numeric column. -/
def dfT : DataFrame :=
  ⟨[⟨"T", "object", [.str "x", .str "y"]⟩, ⟨"S", "int64", [.num 5, .null]⟩], 2⟩

/-- A frame with zero rows. -/
def dfE : DataFrame := ⟨[⟨"A", "float64", []⟩], 0⟩

/-- A two-row frame with one missing cell in column `A`. -/
def dfM : DataFrame := ⟨[⟨"A", "float64", [.num 1, .null]⟩], 2⟩

/-- A store already holding an `outliers` entry. -/
def prior10 : CheckResult := ⟨true, .outliers []⟩

/-- A one-entry store used to observe that a failed call leaves it be. -/
def store10 : Store := [("outliers", prior10)]

/-- The property C5 asserts of one requested numeric column: a row index
is reported iff it is in range and its cell holds a value lying strictly
outside `[mean − n_std·std, mean + n_std·std]`, the interval read over
the reals with `std` the square root of the sample variance. -/
def outlierIffSpec (df : DataFrame) (c : Column) (k : ℚ) : Prop :=
  ∀ i, i ∈ outlierIdx df c k ↔
    i < df.nRows ∧ ∃ x : ℚ, (c.cells.getD i Value.null).toNum = some x ∧
      ((x : ℝ) < (sampleMean c.numsOf : ℝ) -
          (k : ℝ) * Real.sqrt ((sampleVar c.numsOf : ℚ) : ℝ) ∨
        (sampleMean c.numsOf : ℝ) +
          (k : ℝ) * Real.sqrt ((sampleVar c.numsOf : ℚ) : ℝ) < (x : ℝ))

/-! ## Store lemmas -/

theorem Store.get_set_self (s : Store) (k : String) (v : CheckResult) :
    (s.set k v).get k = some v := by
  induction s with
  | nil => simp [Store.set, Store.get]
  | cons p rest ih =>
      obtain ⟨k', v'⟩ := p
      by_cases h : k' == k
      · simp [Store.set, h, Store.get]
      · simpa [Store.set, h, Store.get] using ih

theorem Store.get_set_ne (s : Store) (k k' : String) (v : CheckResult)
    (h : k' ≠ k) : (s.set k v).get k' = s.get k' := by
  induction s with
  | nil => simp [Store.set, Store.get, bne, h, Ne.symm h]
  | cons p rest ih =>
      obtain ⟨k₀, v₀⟩ := p
      by_cases h₀ : k₀ == k
      · have hk₀ : k₀ = k := by simpa using h₀
        subst hk₀
        simp [Store.set, Store.get, Ne.symm h]
      · by_cases h₁ : k₀ == k'
        · simp [Store.set, h₀, Store.get, h₁]
        · simpa [Store.set, h₀, Store.get, h₁] using ih

theorem Store.set_set (s : Store) (k : String) (v w : CheckResult) :
    (s.set k v).set k w = s.set k w := by
  induction s with
  | nil => simp [Store.set]
  | cons p rest ih =>
      obtain ⟨k₀, v₀⟩ := p
      by_cases h₀ : k₀ == k
      · simp [Store.set, h₀]
      · simp [Store.set, h₀, ih]

/-! ## C1: the summary's overall status -/

/-- C1: `get_validation_summary` returns `overall_status` equal to the
logical AND of the status values of all stored checks: it is `true` on
the empty store (vacuous truth) and `false` as soon as some stored check
has status `false`. -/
theorem claim_C1_summary_overall_status (df : DataFrame) (s : Store) :
    ((get_validation_summary df s).overall_status = true ↔
        ∀ p ∈ s, p.2.status = true)
      ∧ (get_validation_summary df []).overall_status = true
      ∧ ((get_validation_summary df s).overall_status = false ↔
        ∃ p ∈ s, p.2.status = false) := by
  refine ⟨by simp [get_validation_summary], by simp [get_validation_summary], ?_⟩
  simp only [get_validation_summary]
  rw [← Bool.not_eq_true, List.all_eq_true]
  push_neg
  simp

/-! ## C2 / C7: the missing-value check -/

/-- C2: for a threshold in `[0, 1]`, a column is flagged iff its missing
fraction strictly exceeds the threshold (equality never flags), the
returned and stored mapping holds exactly the flagged columns with their
fractions, and the stored status is `true` iff nothing is flagged. -/
theorem claim_C2_missing_values_flagging (df : DataFrame) (s : Store) (t : ℚ)
    (h0 : 0 ≤ t) (h1 : t ≤ 1) :
    (∀ nm q, (nm, q) ∈ flaggedMissing df t ↔
        ∃ c ∈ df.cols, c.name = nm ∧ specMissingFraction df c = q ∧ t < q)
      ∧ check_missing_values df s t =
        .ok (s.set "missing_values"
          ⟨(flaggedMissing df t).isEmpty, .missing (flaggedMissing df t)⟩,
          flaggedMissing df t)
      ∧ ((flaggedMissing df t).isEmpty = true ↔
        ∀ c ∈ df.cols, ¬ t < specMissingFraction df c) := by
  have hfrac : ∀ c : Column, missingPct df c =
      if df.nRows = 0 then none else some (specMissingFraction df c) := by
    intro c
    by_cases h : df.nRows = 0 <;> simp [missingPct, specMissingFraction, h]
  refine ⟨?_, rfl, ?_⟩
  · intro nm q
    simp only [flaggedMissing, List.mem_filterMap]
    constructor
    · rintro ⟨c, hc, heq⟩
      rw [hfrac] at heq
      by_cases h : df.nRows = 0
      · simp [h] at heq
      · simp only [h, if_false] at heq
        by_cases hlt : t < specMissingFraction df c
        · simp only [hlt, if_true, Option.some.injEq, Prod.mk.injEq] at hfrac heq ⊢
          exact ⟨c, hc, heq.1, heq.2, heq.2 ▸ hlt⟩
        · simp [hlt] at heq
    · rintro ⟨c, hc, hnm, hq, hlt⟩
      refine ⟨c, hc, ?_⟩
      rw [hfrac]
      have h : ¬ df.nRows = 0 := by
        intro h
        rw [specMissingFraction, if_pos h] at hq
        exact absurd (hq ▸ hlt) (not_lt.mpr h0)
      simp [h, hlt, hq, hnm]
  · rw [List.isEmpty_iff, flaggedMissing, List.filterMap_eq_nil_iff]
    constructor
    · intro h c hc hlt
      have := h c hc
      rw [hfrac] at this
      by_cases hz : df.nRows = 0
      · rw [specMissingFraction, if_pos hz] at hlt
        exact absurd hlt (not_lt.mpr h0)
      · simp [hz, hlt] at this
    · intro h c hc
      rw [hfrac]
      by_cases hz : df.nRows = 0
      · simp [hz]
      · simp [hz, h c hc]

/-- Witness for C2: on a two-row frame whose column `A` has one missing
cell (fraction `1/2`) and threshold `1/10`, the characterisation holds
and the column is flagged. -/
theorem claim_C2_witness :
    ((∀ nm q, (nm, q) ∈ flaggedMissing dfM (1/10) ↔
        ∃ c ∈ dfM.cols, c.name = nm ∧ specMissingFraction dfM c = q ∧ (1/10 : ℚ) < q)
      ∧ check_missing_values dfM [] (1/10) =
        .ok (Store.set [] "missing_values"
          ⟨(flaggedMissing dfM (1/10)).isEmpty, .missing (flaggedMissing dfM (1/10))⟩,
          flaggedMissing dfM (1/10))
      ∧ ((flaggedMissing dfM (1/10)).isEmpty = true ↔
        ∀ c ∈ dfM.cols, ¬ (1/10 : ℚ) < specMissingFraction dfM c))
      ∧ flaggedMissing dfM (1/10) = [("A", 1/2)] :=
  ⟨claim_C2_missing_values_flagging dfM [] (1/10) (by norm_num) (by norm_num), by
    simp only [flaggedMissing, dfM, missingPct, nullCount, Value.isNull, List.filterMap_cons,
      List.filterMap_nil, List.countP_cons, List.countP_nil]
    norm_num⟩

/-- C7: on a frame with zero rows the missing-value check succeeds for
any threshold `≥ 0`, flags nothing, stores an empty details mapping with
status `true`, and the spec's fraction is `0` for every column. -/
theorem claim_C7_zero_rows (df : DataFrame) (s : Store) (t : ℚ)
    (hz : df.nRows = 0) (ht : 0 ≤ t) :
    check_missing_values df s t =
        .ok (s.set "missing_values" ⟨true, .missing []⟩, [])
      ∧ flaggedMissing df t = []
      ∧ ∀ c ∈ df.cols, specMissingFraction df c = 0 := by
  have hflag : flaggedMissing df t = [] := by
    rw [flaggedMissing, List.filterMap_eq_nil_iff]
    intro c _
    simp [missingPct, hz]
  refine ⟨?_, hflag, ?_⟩
  · rw [check_missing_values]
    simp [hflag]
  · intro c _
    simp [specMissingFraction, hz]

/-- Witness for C7: the zero-row frame `dfE` with threshold `0`. -/
theorem claim_C7_zero_rows_witness :
    check_missing_values dfE [] 0 =
        .ok (Store.set [] "missing_values" ⟨true, .missing []⟩, [])
      ∧ flaggedMissing dfE 0 = []
      ∧ ∀ c ∈ dfE.cols, specMissingFraction dfE c = 0 :=
  claim_C7_zero_rows dfE [] 0 rfl le_rfl

/-! ## C3: the duplicate check -/

theorem hasEarlierEq_append {α : Type} [DecidableEq α] (l : List α) (a : α)
    (i : ℕ) (hi : i < l.length) :
    hasEarlierEq (l ++ [a]) i = hasEarlierEq l i := by
  rw [hasEarlierEq, hasEarlierEq, Bool.eq_iff_iff]
  simp only [List.any_eq_true, List.mem_range, decide_eq_true_eq]
  constructor
  · rintro ⟨j, hj, hjy⟩
    exact ⟨j, hj, by rwa [List.get?_append (hj.trans hi), List.get?_append hi] at hjy⟩
  · rintro ⟨j, hj, hjy⟩
    exact ⟨j, hj, by rwa [List.get?_append (hj.trans hi), List.get?_append hi]⟩

theorem hasEarlierEq_last {α : Type} [DecidableEq α] (l : List α) (a : α) :
    hasEarlierEq (l ++ [a]) l.length = decide (a ∈ l) := by
  rw [hasEarlierEq, Bool.eq_iff_iff]
  simp only [List.any_eq_true, List.mem_range, decide_eq_true_eq,
    List.get?_concat_length]
  constructor
  · rintro ⟨j, hj, hjy⟩
    rw [List.get?_append hj] at hjy
    exact List.get?_mem hjy
  · intro ha
    obtain ⟨⟨j, hj⟩, hja⟩ := List.mem_iff_get.mp ha
    refine ⟨j, hj, ?_⟩
    rw [List.get?_append hj, List.get?_eq_get hj, hja]

theorem dupFlags_append {α : Type} [DecidableEq α] (l : List α) (a : α) :
    dupFlags (l ++ [a]) = dupFlags l ++ [decide (a ∈ l)] := by
  rw [dupFlags, dupFlags, List.length_append, List.length_singleton,
    List.range_succ, List.map_append]
  congr 1
  · exact List.map_congr_left fun i hi =>
      hasEarlierEq_append l a i (List.mem_range.mp hi)
  · simp [hasEarlierEq_last l a]

theorem dupCount_append {α : Type} [DecidableEq α] (l : List α) (a : α) :
    dupCount (l ++ [a]) = dupCount l + (if a ∈ l then 1 else 0) := by
  rw [dupCount, dupCount, dupFlags_append, List.count_append]
  by_cases h : a ∈ l <;> simp [h, List.count_singleton]

/-- The counting identity behind the duplicate check: the number of
positions with an identical earlier element, plus the number of distinct
elements, is the total length. -/
theorem dupCount_add_card {α : Type} [DecidableEq α] (l : List α) :
    dupCount l + l.toFinset.card = l.length := by
  induction l using List.reverseRecOn with
  | nil => simp [dupCount, dupFlags]
  | append_singleton l a ih =>
      rw [dupCount_append]
      have htf : (l ++ [a]).toFinset = insert a l.toFinset := by
        ext x
        simp [or_comm]
      by_cases h : a ∈ l
      · rw [htf, Finset.insert_eq_self.mpr (List.mem_toFinset.mpr h)]
        simp only [h, if_true, List.length_append, List.length_singleton]
        omega
      · rw [htf, Finset.card_insert_of_not_mem (fun hc => h (List.mem_toFinset.mp hc))]
        simp only [h, if_false, List.length_append, List.length_singleton]
        omega

theorem dupKeys_none_get? (df : DataFrame) (i : ℕ) (hi : i < df.nRows) :
    (dupKeys df none).get? i = some (df.rowAt i) := by
  simp [dupKeys, List.get?_eq_getElem?, List.getElem?_map, List.getElem?_range hi]

theorem dupKeys_none_length (df : DataFrame) :
    (dupKeys df none).length = df.nRows := by
  simp [dupKeys]

/-- C3: `check_duplicates(None)` marks a row iff some earlier row holds
identical values across all columns, the count plus the number of
distinct full rows is the row count (equivalently, the count is
`row_count − distinct`), and the stored status is `true` iff the count
is zero. -/
theorem claim_C3_duplicates_count (df : DataFrame) (s : Store) (hwf : df.WF = true) :
    (∀ i, i < df.nRows →
        (hasEarlierEq (dupKeys df none) i = true ↔ ∃ j < i, df.rowAt j = df.rowAt i))
      ∧ dupCount (dupKeys df none) + (dupKeys df none).toFinset.card = df.nRows
      ∧ dupCount (dupKeys df none) = df.nRows - (dupKeys df none).toFinset.card
      ∧ check_duplicates df s none =
        .ok (s.set "duplicates"
          ⟨decide (dupCount (dupKeys df none) = 0), .dup (dupCount (dupKeys df none))⟩,
          dupCount (dupKeys df none)) := by
  have hcard := dupCount_add_card (dupKeys df none)
  rw [dupKeys_none_length] at hcard
  refine ⟨?_, hcard, by omega, rfl⟩
  intro i hi
  simp only [hasEarlierEq, List.any_eq_true, List.mem_range, decide_eq_true_eq]
  constructor
  · rintro ⟨j, hj, hjy⟩
    rw [dupKeys_none_get? df i hi, dupKeys_none_get? df j (hj.trans hi)] at hjy
    exact ⟨j, hj, Option.some.inj hjy⟩
  · rintro ⟨j, hj, hjy⟩
    refine ⟨j, hj, ?_⟩
    rw [dupKeys_none_get? df i hi, dupKeys_none_get? df j (hj.trans hi), hjy]

/-- Witness for C3: on the spec's example frame (`A = [1, 1, 2, 2, 3]`)
the characterisation holds and the reported count is `2`. -/
theorem claim_C3_duplicates_count_witness :
    ((∀ i, i < dfA.nRows →
        (hasEarlierEq (dupKeys dfA none) i = true ↔ ∃ j < i, dfA.rowAt j = dfA.rowAt i))
      ∧ dupCount (dupKeys dfA none) + (dupKeys dfA none).toFinset.card = dfA.nRows
      ∧ dupCount (dupKeys dfA none) = dfA.nRows - (dupKeys dfA none).toFinset.card
      ∧ check_duplicates dfA [] none =
        .ok (Store.set [] "duplicates"
          ⟨decide (dupCount (dupKeys dfA none) = 0), .dup (dupCount (dupKeys dfA none))⟩,
          dupCount (dupKeys dfA none)))
      ∧ dupCount (dupKeys dfA none) = 2 :=
  ⟨claim_C3_duplicates_count dfA [] (by decide), by
    simp [dupCount, dupKeys, dfA, dupFlags, hasEarlierEq, DataFrame.rowAt, List.range_succ]⟩

/-! ## C5 / C6: the outlier check -/

/-- The decision procedure `ltSqrtMul` agrees with the real-number
comparison `d < k * √v` it stands for. -/
theorem ltSqrtMul_iff (d k v : ℚ) (hv : 0 ≤ v) :
    ltSqrtMul d k v = true ↔ (d : ℝ) < (k : ℝ) * Real.sqrt (v : ℝ) := by
  have hs0 : 0 ≤ Real.sqrt (v : ℝ) := Real.sqrt_nonneg _
  have hs2 : Real.sqrt (v : ℝ) ^ 2 = (v : ℝ) := Real.sq_sqrt (by exact_mod_cast hv)
  rcases lt_trichotomy k 0 with hk | hk | hk
  · have hkR : (k : ℝ) < 0 := by exact_mod_cast hk
    rw [ltSqrtMul, if_neg (not_lt.mpr hk.le), if_neg hk.ne, decide_eq_true_eq]
    constructor
    · rintro ⟨hd, hlt⟩
      have hdR : (d : ℝ) < 0 := by exact_mod_cast hd
      have hltR : (k : ℝ) ^ 2 * (v : ℝ) < (d : ℝ) ^ 2 := by exact_mod_cast hlt
      have h1 : (-(k : ℝ) * Real.sqrt (v : ℝ)) ^ 2 = (k : ℝ) ^ 2 * (v : ℝ) := by
        rw [mul_pow, hs2]; ring
      have h3 : -(k : ℝ) * Real.sqrt (v : ℝ) < -(d : ℝ) := by
        apply lt_of_pow_lt_pow_left 2 (by linarith)
        rw [h1]
        calc (k : ℝ) ^ 2 * (v : ℝ) < (d : ℝ) ^ 2 := hltR
          _ = (-(d : ℝ)) ^ 2 := by ring
      linarith
    · intro h
      have hks : (k : ℝ) * Real.sqrt (v : ℝ) ≤ 0 :=
        mul_nonpos_iff.mpr (Or.inr ⟨hkR.le, hs0⟩)
      have hdR : (d : ℝ) < 0 := lt_of_lt_of_le h hks
      refine ⟨by exact_mod_cast hdR, ?_⟩
      have h4 : (-(k : ℝ) * Real.sqrt (v : ℝ)) ^ 2 < (-(d : ℝ)) ^ 2 := by
        apply pow_lt_pow_left (by linarith) (mul_nonneg (by linarith) hs0)
        norm_num
      have h5 : (k : ℝ) ^ 2 * (v : ℝ) < (d : ℝ) ^ 2 := by
        have e1 : (-(k : ℝ) * Real.sqrt (v : ℝ)) ^ 2 = (k : ℝ) ^ 2 * (v : ℝ) := by
          rw [mul_pow, hs2]; ring
        have e2 : (-(d : ℝ)) ^ 2 = (d : ℝ) ^ 2 := by ring
        rw [e1, e2] at h4
        exact h4
      exact_mod_cast h5
  · subst hk
    rw [ltSqrtMul, if_neg (lt_irrefl 0), if_pos rfl, decide_eq_true_eq]
    rw [Rat.cast_zero, zero_mul]
    exact_mod_cast Iff.rfl
  · have hkR : (0 : ℝ) < (k : ℝ) := by exact_mod_cast hk
    rw [ltSqrtMul, if_pos hk, decide_eq_true_eq]
    have e1 : ((k : ℝ) * Real.sqrt (v : ℝ)) ^ 2 = (k : ℝ) ^ 2 * (v : ℝ) := by
      rw [mul_pow, hs2]
    constructor
    · rintro (hd | ⟨hd0, hdsq⟩)
      · have hdR : (d : ℝ) < 0 := by exact_mod_cast hd
        have : 0 ≤ (k : ℝ) * Real.sqrt (v : ℝ) := mul_nonneg hkR.le hs0
        linarith
      · have hd0R : (0 : ℝ) ≤ (d : ℝ) := by exact_mod_cast hd0
        have hdsqR : (d : ℝ) ^ 2 < (k : ℝ) ^ 2 * (v : ℝ) := by exact_mod_cast hdsq
        apply lt_of_pow_lt_pow_left 2 (mul_nonneg hkR.le hs0)
        rw [e1]
        exact hdsqR
    · intro h
      by_cases hd : d < 0
      · exact Or.inl hd
      · have hd0 : 0 ≤ d := not_lt.mp hd
        refine Or.inr ⟨hd0, ?_⟩
        have hd0R : (0 : ℝ) ≤ (d : ℝ) := by exact_mod_cast hd0
        have h4 : (d : ℝ) ^ 2 < ((k : ℝ) * Real.sqrt (v : ℝ)) ^ 2 := by
          apply pow_lt_pow_left h hd0R
          norm_num
        rw [e1] at h4
        exact_mod_cast h4

/-- The sample variance of at least two values is nonnegative. -/
theorem sampleVar_nonneg (xs : List ℚ) (h2 : 2 ≤ xs.length) : 0 ≤ sampleVar xs := by
  apply div_nonneg
  · apply List.sum_nonneg
    intro x hx
    obtain ⟨y, _, rfl⟩ := List.mem_map.mp hx
    positivity
  · have : (2 : ℚ) ≤ (xs.length : ℚ) := by exact_mod_cast h2
    linarith

/-- With at least two values, zero sample variance forces every value to
equal the mean. -/
theorem eq_mean_of_sampleVar_eq_zero (xs : List ℚ) (h2 : 2 ≤ xs.length)
    (hv : sampleVar xs = 0) : ∀ x ∈ xs, x = sampleMean xs := by
  have hden : ((xs.length : ℚ) - 1) ≠ 0 := by
    have : (2 : ℚ) ≤ (xs.length : ℚ) := by exact_mod_cast h2
    intro h
    linarith
  rw [sampleVar, div_eq_zero_iff] at hv
  have hsum : (xs.map (fun x => (x - sampleMean xs) ^ 2)).sum = 0 := hv.resolve_right hden
  intro x hx
  have hmem : (x - sampleMean xs) ^ 2 ∈ xs.map (fun x => (x - sampleMean xs) ^ 2) :=
    List.mem_map_of_mem _ hx
  have hnn : ∀ y ∈ xs.map (fun x => (x - sampleMean xs) ^ 2), 0 ≤ y := by
    intro y hy
    obtain ⟨z, _, rfl⟩ := List.mem_map.mp hy
    positivity
  have hle := List.single_le_sum hnn _ hmem
  rw [hsum] at hle
  have hz : (x - sampleMean xs) ^ 2 = 0 := le_antisymm hle (hnn _ hmem)
  have := pow_eq_zero_iff (n := 2) (by norm_num) |>.mp hz
  linarith [sub_eq_zero.mp this]

/-- `ltSqrtMul` rejects a zero difference against a zero variance. -/
theorem ltSqrtMul_zero_zero (k : ℚ) : ltSqrtMul 0 k 0 = false := by
  rw [ltSqrtMul]
  split_ifs <;> simp

/-- A numeric column with fewer than two non-missing values yields an
empty outlier list (pandas' `std` is `NaN` there and every comparison
against `NaN` is false). -/
theorem outlierIdx_of_short (df : DataFrame) (c : Column) (k : ℚ)
    (h2 : c.numsOf.length < 2) : outlierIdx df c k = [] := by
  rw [outlierIdx, if_pos h2]

/-- A column with zero sample variance yields an empty outlier list: all
its values coincide with the mean. -/
theorem outlierIdx_of_var_zero (df : DataFrame) (c : Column) (k : ℚ)
    (hv : sampleVar c.numsOf = 0) : outlierIdx df c k = [] := by
  rw [outlierIdx]
  by_cases h2 : c.numsOf.length < 2
  · rw [if_pos h2]
  · rw [if_neg h2]
    rw [List.filter_eq_nil_iff]
    intro i _
    rw [Bool.not_eq_true, isOutlierAt]
    cases hx : (c.cells.getD i Value.null).toNum with
    | none => rfl
    | some x =>
        have hmem : x ∈ c.numsOf := by
          by_cases hi : i < c.cells.length
          · rw [List.getD_eq_getElem _ _ hi] at hx
            exact List.mem_filterMap.mpr ⟨_, List.getElem_mem hi, hx⟩
          · rw [List.getD_eq_default _ _ (not_lt.mp hi)] at hx
            simp [Value.toNum] at hx
        have hxm : x = sampleMean c.numsOf :=
          eq_mean_of_sampleVar_eq_zero _ (not_lt.mp h2) hv x hmem
        simp [hxm, hv, sub_self, ltSqrtMul_zero_zero]

/-- The outlier list of one column is strictly ascending. -/
theorem outlierIdx_sorted (df : DataFrame) (c : Column) (k : ℚ) :
    (outlierIdx df c k).Sorted (· < ·) := by
  rw [outlierIdx]
  by_cases h2 : c.numsOf.length < 2
  · rw [if_pos h2]
    exact List.sorted_nil
  · rw [if_neg h2]
    exact (List.pairwise_lt_range _).filter _

/-- For a column with at least two non-missing values, the outlier list
contains exactly the in-range row positions whose value lies strictly
outside the real interval `[mean − k·√var, mean + k·√var]` — the code's
`x < mean − n_std·std or x > mean + n_std·std`, for any `n_std`. -/
theorem outlierIffSpec_holds (df : DataFrame) (c : Column) (k : ℚ)
    (h2 : 2 ≤ c.numsOf.length) : outlierIffSpec df c k := by
  have hv : 0 ≤ sampleVar c.numsOf := sampleVar_nonneg _ h2
  intro i
  rw [outlierIdx, if_neg (not_lt.mpr h2), List.mem_filter, List.mem_range]
  apply and_congr_right
  intro _
  rw [isOutlierAt]
  cases hx : (c.cells.getD i Value.null).toNum with
  | none => simp
  | some x =>
      simp only [Option.some.injEq]
      rw [Bool.or_eq_true, ltSqrtMul_iff _ _ _ hv, ltSqrtMul_iff _ _ _ hv]
      constructor
      · rintro (h | h)
        · refine ⟨x, rfl, Or.inl ?_⟩
          push_cast at h
          linarith
        · refine ⟨x, rfl, Or.inr ?_⟩
          push_cast at h
          linarith
      · rintro ⟨y, hy, h | h⟩
        · subst hy
          left
          push_cast
          linarith
        · subst hy
          right
          push_cast
          linarith

/-- C5: for a requested numeric column with at least two non-missing
values and nonzero sample variance, and `n_std ≥ 0`: a row is reported
iff its value lies strictly outside `[mean − n_std·std, mean + n_std·std]`
over the reals, the index list is ascending, the stored status is `true`
iff every per-column list is empty, and with `n_std = 0` exactly the
rows whose value differs from the mean are reported. -/
theorem claim_C5_outliers (df : DataFrame) (c : Column) (k : ℚ) (name : String)
    (cols : List String) (s s' : Store) (res : List (String × List ℕ))
    (hname : df.column name = some c) (hnum : isNumericDtype c.dtype = true)
    (h2 : 2 ≤ c.numsOf.length) (hvar : sampleVar c.numsOf ≠ 0) (hk : 0 ≤ k)
    (hrun : check_outliers df s cols k = .ok (s', res)) :
    outlierIffSpec df c k
      ∧ (outlierIdx df c k).Sorted (· < ·)
      ∧ s'.get "outliers" = some ⟨res.all (fun p => p.2.isEmpty), .outliers res⟩
      ∧ (res.all (fun p => p.2.isEmpty) = true ↔ ∀ p ∈ res, p.2 = [])
      ∧ ∀ i, i ∈ outlierIdx df c 0 ↔
          i < df.nRows ∧ ∃ x : ℚ, (c.cells.getD i Value.null).toNum = some x ∧
            x ≠ sampleMean c.numsOf := by
  refine ⟨outlierIffSpec_holds df c k h2, outlierIdx_sorted df c k, ?_, ?_, ?_⟩
  · rw [check_outliers] at hrun
    cases he : outlierEntries df cols k with
    | error e => rw [he] at hrun; exact absurd hrun (by simp)
    | ok l =>
        rw [he] at hrun
        simp only [Except.ok.injEq, Prod.mk.injEq] at hrun
        obtain ⟨hs', hres⟩ := hrun
        subst hres
        rw [← hs']
        exact Store.get_set_self s "outliers" _
  · rw [List.all_eq_true]
    constructor
    · intro h p hp
      exact List.isEmpty_iff.mp (h p hp)
    · intro h p hp
      exact List.isEmpty_iff.mpr (h p hp)
  · intro i
    rw [outlierIffSpec_holds df c 0 h2 i]
    apply and_congr_right
    intro _
    constructor
    · rintro ⟨x, hx, h | h⟩ <;>
        · refine ⟨x, hx, fun hxm => ?_⟩
          rw [hxm] at h
          simp at h
    · rintro ⟨x, hx, hne⟩
      refine ⟨x, hx, ?_⟩
      rcases lt_or_gt_of_ne (fun h : (x : ℝ) = (sampleMean c.numsOf : ℝ) =>
        hne (by exact_mod_cast h)) with h | h
      · left
        simpa using h
      · right
        simpa using h

/-- Witness for C5: on `colB` (`[0, 0, 0, 0, 100]`, mean `20`, sample
variance `2000`) with `n_std = 1`, the run reports row `4` and stores
status `false`. -/
theorem claim_C5_outliers_witness :
    outlierIffSpec dfB colB 1
      ∧ (outlierIdx dfB colB 1).Sorted (· < ·)
      ∧ Store.get [("outliers", ⟨false, .outliers [("B", [4])]⟩)] "outliers" =
          some ⟨([("B", [4])] : List (String × List ℕ)).all (fun p => p.2.isEmpty),
            .outliers [("B", [4])]⟩
      ∧ (([("B", [4])] : List (String × List ℕ)).all (fun p => p.2.isEmpty) = true ↔
          ∀ p ∈ ([("B", [4])] : List (String × List ℕ)), p.2 = [])
      ∧ ∀ i, i ∈ outlierIdx dfB colB 0 ↔
          i < dfB.nRows ∧ ∃ x : ℚ, (colB.cells.getD i Value.null).toNum = some x ∧
            x ≠ sampleMean colB.numsOf := by
  have hns : colB.numsOf = [0, 0, 0, 0, 100] := by
    simp [Column.numsOf, colB, Value.toNum, List.filterMap_cons]
  have hm : sampleMean colB.numsOf = 20 := by
    rw [hns]; norm_num [sampleMean]
  have hv : sampleVar colB.numsOf = 2000 := by
    rw [sampleVar, hm, hns]; norm_num
  have hidx : outlierIdx dfB colB 1 = [4] := by
    have hc : colB.cells = [.num 0, .num 0, .num 0, .num 0, .num 100] := rfl
    have hn : dfB.nRows = 5 := rfl
    rw [outlierIdx, hns, hn]
    norm_num [isOutlierAt, hm, hv, ltSqrtMul, hc, Value.toNum, List.range_succ,
      List.filter_append]
  have hcol : dfB.column "B" = some colB := rfl
  have hent : outlierEntries dfB ["B"] 1 = .ok [("B", [4])] := by
    simp only [outlierEntries, hcol]
    rw [show isNumericDtype colB.dtype = true from rfl]
    simp [hidx, Except.map]
  have hrun : check_outliers dfB [] ["B"] 1 =
      .ok ([("outliers", ⟨false, .outliers [("B", [4])]⟩)], [("B", [4])]) := by
    rw [check_outliers, hent]
    rfl
  exact claim_C5_outliers dfB colB 1 "B" ["B"] []
    [("outliers", ⟨false, .outliers [("B", [4])]⟩)] [("B", [4])]
    hcol rfl (by rw [hns]; norm_num) (by rw [hv]; norm_num) (by norm_num) hrun

/-- C6: the outlier check degrades gracefully: a requested column with a
non-numeric dtype is skipped silently (no entry, no error), and a
numeric one with fewer than two non-missing values or zero sample
variance contributes an empty outlier list instead of erroring. -/
theorem claim_C6_outliers_graceful (df : DataFrame) (name : String) (c : Column)
    (k : ℚ) (rest : List String) (h : df.column name = some c) :
    (isNumericDtype c.dtype = false →
        outlierEntries df (name :: rest) k = outlierEntries df rest k)
      ∧ (isNumericDtype c.dtype = true → c.numsOf.length < 2 →
        outlierEntries df (name :: rest) k =
          (outlierEntries df rest k).map (fun l => (name, []) :: l))
      ∧ (isNumericDtype c.dtype = true → sampleVar c.numsOf = 0 →
        outlierEntries df (name :: rest) k =
          (outlierEntries df rest k).map (fun l => (name, []) :: l)) := by
  refine ⟨?_, ?_, ?_⟩
  · intro hfalse
    simp only [outlierEntries, h, hfalse, Bool.false_eq_true, if_false]
  · intro htrue hshort
    simp only [outlierEntries, h, htrue, if_true, outlierIdx_of_short df c k hshort]
  · intro htrue hzero
    simp only [outlierEntries, h, htrue, if_true, outlierIdx_of_var_zero df c k hzero]

/-- Witness for C6: requesting the textual column `T` of `dfT` skips it,
leaving exactly the entries of the remaining labels. -/
theorem claim_C6_outliers_graceful_witness :
    (isNumericDtype (Column.mk "T" "object" [.str "x", .str "y"]).dtype = false →
        outlierEntries dfT ["T", "S"] 3 = outlierEntries dfT ["S"] 3)
      ∧ (isNumericDtype (Column.mk "T" "object" [.str "x", .str "y"]).dtype = true →
        (Column.mk "T" "object" [.str "x", .str "y"]).numsOf.length < 2 →
        outlierEntries dfT ["T", "S"] 3 =
          (outlierEntries dfT ["S"] 3).map (fun l => ("T", []) :: l))
      ∧ (isNumericDtype (Column.mk "T" "object" [.str "x", .str "y"]).dtype = true →
        sampleVar (Column.mk "T" "object" [.str "x", .str "y"]).numsOf = 0 →
        outlierEntries dfT ["T", "S"] 3 =
          (outlierEntries dfT ["S"] 3).map (fun l => ("T", []) :: l)) :=
  claim_C6_outliers_graceful dfT "T" (Column.mk "T" "object" [.str "x", .str "y"]) 3 ["S"] rfl

/-! ## C8: the schema check -/

theorem isMismatch_eq_true_iff (df : DataFrame) (nm ty : String) :
    isMismatch df (nm, ty) = true ↔
      df.column nm = none ∨ ∃ c, df.column nm = some c ∧ c.dtype ≠ ty := by
  cases h : df.column nm with
  | none => simp [isMismatch, h]
  | some c => simp [isMismatch, h, bne_iff_ne]

theorem validateSchemaList_sublist (df : DataFrame) (expected : List (String × String)) :
    (validateSchemaList df expected).Sublist (expected.map Prod.fst) := by
  induction expected with
  | nil => simp [validateSchemaList]
  | cons p rest ih =>
      rw [validateSchemaList, List.filterMap_cons, List.map_cons]
      by_cases h : isMismatch df p
      · rw [if_pos h]
        exact (ih).cons₂ _
      · rw [if_neg h]
        exact ih.cons _

/-- C8: `validate_schema` returns and stores exactly the mismatched
entries — absent columns always, present columns iff their dtype label
differs from the expected one — in the order the expected mapping lists
them, with status `true` iff nothing mismatches. -/
theorem claim_C8_schema (df : DataFrame) (s s' : Store)
    (expected : List (String × String)) (res : List String)
    (hrun : validate_schema df s expected = .ok (s', res)) :
    res = validateSchemaList df expected
      ∧ (∀ nm, nm ∈ res ↔ ∃ ty, (nm, ty) ∈ expected ∧
          (df.column nm = none ∨ ∃ c, df.column nm = some c ∧ c.dtype ≠ ty))
      ∧ res.Sublist (expected.map Prod.fst)
      ∧ s'.get "schema" = some ⟨res.isEmpty, .schema res⟩
      ∧ (res.isEmpty = true ↔ ∀ p ∈ expected, isMismatch df p = false) := by
  rw [validate_schema] at hrun
  simp only [Except.ok.injEq, Prod.mk.injEq] at hrun
  obtain ⟨hs', hres⟩ := hrun
  subst hres
  refine ⟨rfl, ?_, validateSchemaList_sublist df expected, ?_, ?_⟩
  · intro nm
    rw [validateSchemaList, List.mem_filterMap]
    constructor
    · rintro ⟨⟨nm', ty⟩, hp, hcond⟩
      by_cases h : isMismatch df (nm', ty)
      · rw [if_pos h, Option.some.injEq] at hcond
        subst hcond
        exact ⟨ty, hp, (isMismatch_eq_true_iff df nm' ty).mp h⟩
      · rw [if_neg h] at hcond
        exact absurd hcond (by simp)
    · rintro ⟨ty, hp, hcond⟩
      exact ⟨(nm, ty), hp, by
        rw [if_pos ((isMismatch_eq_true_iff df nm ty).mpr hcond)]⟩
  · rw [← hs']
    exact Store.get_set_self s "schema" _
  · rw [List.isEmpty_iff, validateSchemaList, List.filterMap_eq_nil_iff]
    constructor
    · intro h p hp
      have := h p hp
      by_cases hm : isMismatch df p
      · rw [if_pos hm] at this
        exact absurd this (by simp)
      · exact Bool.not_eq_true _ |>.mp hm
    · intro h p hp
      rw [if_neg (by rw [h p hp]; exact Bool.false_ne_true)]

/-- Witness for C8: against `dfA` (whose only column `A` has dtype
`int64`), expecting `A : object` and the absent `C : float64` yields
exactly `["A", "C"]`, in that order, with status `false`. -/
theorem claim_C8_schema_witness :
    (["A", "C"] : List String) = validateSchemaList dfA [("A", "object"), ("C", "float64")]
      ∧ (∀ nm, nm ∈ (["A", "C"] : List String) ↔
          ∃ ty, (nm, ty) ∈ [("A", "object"), ("C", "float64")] ∧
            (dfA.column nm = none ∨ ∃ c, dfA.column nm = some c ∧ c.dtype ≠ ty))
      ∧ (["A", "C"] : List String).Sublist ([("A", "object"), ("C", "float64")].map Prod.fst)
      ∧ Store.get [("schema", ⟨false, .schema ["A", "C"]⟩)] "schema" =
          some ⟨(["A", "C"] : List String).isEmpty, .schema ["A", "C"]⟩
      ∧ ((["A", "C"] : List String).isEmpty = true ↔
          ∀ p ∈ [("A", "object"), ("C", "float64")], isMismatch dfA p = false) :=
  claim_C8_schema dfA [] [("schema", ⟨false, .schema ["A", "C"]⟩)]
    [("A", "object"), ("C", "float64")] ["A", "C"] rfl

/-! ## C9: determinism and idempotence -/

/-- C9: every check is a pure function of the frame and its parameters:
re-running it from the store its first run produced returns the same
result and the same store (the fixed key is overwritten in place), and a
run leaves every other key's entry unchanged. -/
theorem claim_C9_idempotence (df : DataFrame) (s : Store) (t k : ℚ)
    (sub : Option (List String)) (cols : List String)
    (sch : List (String × String)) (s₁ s₂ s₃ s₄ : Store)
    (r₁ : List (String × ℚ)) (r₂ : ℕ) (r₃ : List (String × List ℕ)) (r₄ : List String)
    (key₁ key₂ key₃ key₄ : String)
    (h₁ : check_missing_values df s t = .ok (s₁, r₁))
    (h₂ : check_duplicates df s sub = .ok (s₂, r₂))
    (h₃ : check_outliers df s cols k = .ok (s₃, r₃))
    (h₄ : validate_schema df s sch = .ok (s₄, r₄))
    (hk₁ : key₁ ≠ "missing_values") (hk₂ : key₂ ≠ "duplicates")
    (hk₃ : key₃ ≠ "outliers") (hk₄ : key₄ ≠ "schema") :
    check_missing_values df s₁ t = .ok (s₁, r₁)
      ∧ check_duplicates df s₂ sub = .ok (s₂, r₂)
      ∧ check_outliers df s₃ cols k = .ok (s₃, r₃)
      ∧ validate_schema df s₄ sch = .ok (s₄, r₄)
      ∧ s₁.get key₁ = s.get key₁
      ∧ s₂.get key₂ = s.get key₂
      ∧ s₃.get key₃ = s.get key₃
      ∧ s₄.get key₄ = s.get key₄ := by
  rw [check_missing_values] at h₁
  simp only [Except.ok.injEq, Prod.mk.injEq] at h₁
  obtain ⟨hs₁, hr₁⟩ := h₁
  have hmv : check_missing_values df s₁ t = .ok (s₁, r₁) := by
    rw [check_missing_values, ← hs₁, ← hr₁, Store.set_set]
  have hdup : check_duplicates df s₂ sub = .ok (s₂, r₂) ∧ ∃ v, s₂ = s.set "duplicates" v := by
    cases sub with
    | none =>
        rw [check_duplicates] at h₂
        simp only [Except.ok.injEq, Prod.mk.injEq] at h₂
        obtain ⟨hs₂, hr₂⟩ := h₂
        constructor
        · rw [check_duplicates, ← hs₂, ← hr₂, Store.set_set]
        · exact ⟨_, hs₂.symm⟩
    | some l =>
        by_cases hm : (l.filter (fun nm => !df.hasColumn nm)).isEmpty
        · rw [check_duplicates] at h₂
          simp only [hm, if_true, Except.ok.injEq, Prod.mk.injEq] at h₂
          obtain ⟨hs₂, hr₂⟩ := h₂
          constructor
          · rw [check_duplicates]
            simp only [hm, if_true, ← hs₂, ← hr₂, Store.set_set]
          · exact ⟨_, hs₂.symm⟩
        · rw [check_duplicates] at h₂
          simp only [hm] at h₂
          exact absurd h₂ (by simp)
  have hout : check_outliers df s₃ cols k = .ok (s₃, r₃) ∧ ∃ v, s₃ = s.set "outliers" v := by
    cases he : outlierEntries df cols k with
    | error e =>
        rw [check_outliers, he] at h₃
        exact absurd h₃ (by simp)
    | ok l =>
        rw [check_outliers, he] at h₃
        simp only [Except.ok.injEq, Prod.mk.injEq] at h₃
        obtain ⟨hs₃, hr₃⟩ := h₃
        constructor
        · rw [check_outliers, he]
          simp only [← hs₃, ← hr₃, Store.set_set]
        · exact ⟨_, hs₃.symm⟩
  rw [validate_schema] at h₄
  simp only [Except.ok.injEq, Prod.mk.injEq] at h₄
  obtain ⟨hs₄, hr₄⟩ := h₄
  have hsc : validate_schema df s₄ sch = .ok (s₄, r₄) := by
    rw [validate_schema, ← hs₄, ← hr₄, Store.set_set]
  obtain ⟨hdup₁, v₂, hv₂⟩ := hdup
  obtain ⟨hout₁, v₃, hv₃⟩ := hout
  refine ⟨hmv, hdup₁, hout₁, hsc, ?_, ?_, ?_, ?_⟩
  · rw [← hs₁]
    exact Store.get_set_ne s _ key₁ _ hk₁
  · rw [hv₂]
    exact Store.get_set_ne s _ key₂ _ hk₂
  · rw [hv₃]
    exact Store.get_set_ne s _ key₃ _ hk₃
  · rw [← hs₄]
    exact Store.get_set_ne s _ key₄ _ hk₄

/-- Witness for C9: all four checks re-run on `dfA` from the store their
first run produced, returning the same results and stores, and each
first run leaves the other keys' entries unchanged. -/
theorem claim_C9_idempotence_witness :
    check_missing_values dfA [("missing_values", ⟨true, .missing []⟩)] 0 =
        .ok ([("missing_values", ⟨true, .missing []⟩)], [])
      ∧ check_duplicates dfA [("duplicates", ⟨false, .dup 2⟩)] none =
        .ok ([("duplicates", ⟨false, .dup 2⟩)], 2)
      ∧ check_outliers dfA [("outliers", ⟨true, .outliers [("A", [])]⟩)] ["A"] 3 =
        .ok ([("outliers", ⟨true, .outliers [("A", [])]⟩)], [("A", [])])
      ∧ validate_schema dfA [("schema", ⟨true, .schema []⟩)] [("A", "int64")] =
        .ok ([("schema", ⟨true, .schema []⟩)], [])
      ∧ Store.get [("missing_values", ⟨true, .missing []⟩)] "duplicates" =
        Store.get [] "duplicates"
      ∧ Store.get [("duplicates", ⟨false, .dup 2⟩)] "missing_values" =
        Store.get [] "missing_values"
      ∧ Store.get [("outliers", ⟨true, .outliers [("A", [])]⟩)] "schema" =
        Store.get [] "schema"
      ∧ Store.get [("schema", ⟨true, .schema []⟩)] "outliers" =
        Store.get [] "outliers" := by
  have h₁ : check_missing_values dfA [] 0 =
      .ok ([("missing_values", ⟨true, .missing []⟩)], []) := by
    have hfl : flaggedMissing dfA 0 = [] := by
      simp only [flaggedMissing, dfA, missingPct, nullCount, Value.isNull, List.filterMap_cons,
        List.filterMap_nil, List.countP_cons, List.countP_nil]
      norm_num
    rw [check_missing_values]
    simp [hfl, Store.set]
  have h₂ : check_duplicates dfA [] none = .ok ([("duplicates", ⟨false, .dup 2⟩)], 2) := by
    have hdc : dupCount (dupKeys dfA none) = 2 := by
      simp [dupCount, dupKeys, dfA, dupFlags, hasEarlierEq, DataFrame.rowAt, List.range_succ]
    rw [check_duplicates]
    simp [hdc, Store.set]
  have h₃ : check_outliers dfA [] ["A"] 3 =
      .ok ([("outliers", ⟨true, .outliers [("A", [])]⟩)], [("A", [])]) := by
    have hns : colA.numsOf = [1, 1, 2, 2, 3] := by
      simp [Column.numsOf, colA, Value.toNum, List.filterMap_cons]
    have hm : sampleMean colA.numsOf = 9/5 := by rw [hns]; norm_num [sampleMean]
    have hv : sampleVar colA.numsOf = 7/10 := by rw [sampleVar, hm, hns]; norm_num
    have hidx : outlierIdx dfA colA 3 = [] := by
      have hc : colA.cells = [.num 1, .num 1, .num 2, .num 2, .num 3] := rfl
      have hn : dfA.nRows = 5 := rfl
      rw [outlierIdx, hns, hn]
      norm_num [isOutlierAt, hm, hv, ltSqrtMul, hc, Value.toNum, List.range_succ,
        List.filter_append]
    have hent : outlierEntries dfA ["A"] 3 = .ok [("A", [])] := by
      simp only [outlierEntries, show dfA.column "A" = some colA from rfl,
        show isNumericDtype colA.dtype = true from rfl, if_true]
      simp [hidx, Except.map]
    rw [check_outliers, hent]
    rfl
  have h₄ : validate_schema dfA [] [("A", "int64")] =
      .ok ([("schema", ⟨true, .schema []⟩)], []) := rfl
  exact claim_C9_idempotence dfA [] 0 3 none ["A"] [("A", "int64")]
    [("missing_values", ⟨true, .missing []⟩)] [("duplicates", ⟨false, .dup 2⟩)]
    [("outliers", ⟨true, .outliers [("A", [])]⟩)] [("schema", ⟨true, .schema []⟩)]
    [] 2 [("A", [])] [] "duplicates" "missing_values" "schema" "outliers"
    h₁ h₂ h₃ h₄ (by decide) (by decide) (by decide) (by decide)

/-! ## C4: parameter validation (none exists) and subset errors -/

/-- A well-scoped run of the outlier loop: when every requested label is
a column of the frame, the loop cannot raise. -/
theorem outlierEntries_isOk (df : DataFrame) (cols : List String) (k : ℚ)
    (h : ∀ nm ∈ cols, df.hasColumn nm = true) :
    ∃ l, outlierEntries df cols k = .ok l := by
  induction cols with
  | nil => exact ⟨[], rfl⟩
  | cons nm rest ih =>
      have hnm := h nm (List.mem_cons_self nm rest)
      rw [DataFrame.hasColumn] at hnm
      cases hc : df.column nm with
      | none => rw [hc] at hnm; simp at hnm
      | some c =>
          obtain ⟨l, hl⟩ := ih (fun x hx => h x (List.mem_cons_of_mem _ hx))
          by_cases hd : isNumericDtype c.dtype
          · exact ⟨(nm, outlierIdx df c k) :: l, by
              simp only [outlierEntries, hc, hd, if_true, hl, Except.map]⟩
          · exact ⟨l, by simp only [outlierEntries, hc, hd, Bool.false_eq_true, if_false, hl]⟩

/-- Counterexample to C4 as stated: the code validates neither the
threshold nor `n_std` — a threshold of `2` (outside `[0, 1]`) and an
`n_std` of `−1` are both accepted without any error. -/
theorem claim_C4_counterexample :
    (check_missing_values dfA [] 2).isOk = true
      ∧ (check_outliers dfA [] ["A"] (-1)).isOk = true := by
  constructor
  · rfl
  · obtain ⟨l, hl⟩ := outlierEntries_isOk dfA ["A"] (-1) (by decide)
    rw [check_outliers, hl]
    rfl

/-- C4 as amended: `check_missing_values` accepts any threshold without
error (no validation, no clamping) and `check_outliers` accepts any
`n_std` including negative ones whenever its labels resolve; only
`check_duplicates` with a subset naming a non-column fails — with a
pandas `KeyError`, raised before the store write, so the store is
unchanged by the failed call. -/
theorem claim_C4_amended (df : DataFrame) (s : Store) (t k : ℚ)
    (cols sub : List String) (bad : String)
    (hbad : bad ∈ sub) (hmiss : df.hasColumn bad = false)
    (hcols : ∀ nm ∈ cols, df.hasColumn nm = true) :
    (check_missing_values df s t).isOk = true
      ∧ (check_outliers df s cols k).isOk = true
      ∧ (∃ e, check_duplicates df s (some sub) = .error e)
      ∧ afterRun (check_duplicates df s (some sub)) s = s := by
  have hmem : bad ∈ sub.filter (fun nm => !df.hasColumn nm) :=
    List.mem_filter.mpr ⟨hbad, by rw [hmiss]; rfl⟩
  have hne : (sub.filter (fun nm => !df.hasColumn nm)).isEmpty = false := by
    rw [List.isEmpty_eq_false]
    exact List.ne_nil_of_mem hmem
  refine ⟨rfl, ?_, ?_, ?_⟩
  · obtain ⟨l, hl⟩ := outlierEntries_isOk df cols k hcols
    rw [check_outliers, hl]
    rfl
  · refine ⟨.keyError (sub.filter (fun nm => !df.hasColumn nm)), ?_⟩
    rw [check_duplicates]
    simp only [hne, Bool.false_eq_true, if_false]
  · rw [check_duplicates]
    simp only [hne, Bool.false_eq_true, if_false, afterRun]

/-- Witness for C4's amended statement: threshold `2`, `n_std = −1`, and
the subset `["A", "Q"]` against `dfA`, whose only column is `A`. -/
theorem claim_C4_amended_witness :
    (check_missing_values dfA [] 2).isOk = true
      ∧ (check_outliers dfA [] ["A"] (-1)).isOk = true
      ∧ (∃ e, check_duplicates dfA [] (some ["A", "Q"]) = .error e)
      ∧ afterRun (check_duplicates dfA [] (some ["A", "Q"])) [] = [] :=
  claim_C4_amended dfA [] 2 (-1) ["A"] ["A", "Q"] "Q" (by decide) (by decide) (by decide)

/-! ## C10: an absent label aborts the outlier check before the write -/

/-- C10: requesting outliers for `["B", "Z"]` on `dfB`, where `Z` is not
a column, raises the pandas `KeyError` from `self.df["Z"]` instead of
skipping the label, and — since the store write sits after the loop —
the caller's store keeps its previous `outliers` entry untouched. -/
theorem claim_C10_outliers_keyerror :
    check_outliers dfB store10 ["B", "Z"] 3 = .error (.keyError ["Z"])
      ∧ afterRun (check_outliers dfB store10 ["B", "Z"] 3) store10 = store10
      ∧ Store.get store10 "outliers" = some prior10 := by
  have hent : outlierEntries dfB ["B", "Z"] 3 = .error (.keyError ["Z"]) := by
    simp only [outlierEntries, show dfB.column "B" = some colB from rfl,
      show isNumericDtype colB.dtype = true from rfl, if_true,
      show dfB.column "Z" = (none : Option Column) from rfl]
    rfl
  refine ⟨?_, ?_, rfl⟩
  · rw [check_outliers, hent]
  · rw [check_outliers, hent]
    rfl

end DQV
